import Mathlib

/-!
Shallow embedding of `src/TEA5767_Radio.ino` (a simple FM radio tuner
sketch: rotary-encoder input handlers, a tuning/search control loop and
an LCD presentation layer).

Modelling conventions:
* the `byte status` register is a `Nat` (kept below 256 by construction)
  manipulated with `bitRead` / `bitWrite`, faithful to the Arduino macros;
* the `float frequency` variable and the hertz value reported by the tuner
  are rationals (`ℚ`); the C cast `(int)x` is `ctrunc` (truncation toward
  zero) and C `int` division/remainder are `Int.tdiv` / `Int.tmod`;
* the LCD is modelled by a cursor plus the ordered list of cell writes
  `(column, row, value)` performed during one pass; `lcd.write` advances
  the cursor by one column, as the hardware does;
* the tuner peripheral is an external collaborator: each loop iteration
  receives an optional status snapshot (`read_status` succeeding or not)
  and an oracle bit telling whether `process_search` reports completion;
  commands sent to the tuner are recorded in an output list.
-/

namespace TEA5767

/-! ### Status flag bit numbers (lines 80-84 of the sketch) -/

def ST_AUTO : Nat := 0

def ST_STEREO : Nat := 1

def ST_GO_UP : Nat := 2

def ST_GO_DOWN : Nat := 3

def ST_SEARCH : Nat := 4

/-! ### Custom LCD character ids (lines 75-77) -/

def SCALE_CLEAR : ℤ := 5

def STEREO_CHAR_S : ℤ := 6

def STEREO_CHAR_T : ℤ := 7

/-- Arduino `bitRead(value, bit)`. -/
def bitRead (s b : Nat) : Bool := s.testBit b

/-- Arduino `bitWrite(value, bit, v)`: `value |= (1 << bit)` or
`value &= ~(1 << bit)` on the byte-wide register. -/
def bitWrite (s b : Nat) (v : Bool) : Nat :=
  if v then s ||| (1 <<< b) else s &&& (255 ^^^ (1 <<< b))

/-- C cast of a floating value to `int`: truncation toward zero. -/
def ctrunc (q : ℚ) : ℤ := if q < 0 then ⌈q⌉ else ⌊q⌋

/-! ### LCD model -/

/-- LCD surface state during one pass: cursor position and the ordered
list of cell writes `(column, row, value)` performed so far.  Columns are
`ℤ` because the sketch can compute a negative column in principle. -/
structure LCDState where
  col : ℤ
  row : Nat
  writes : List (ℤ × Nat × ℤ)
deriving DecidableEq

def lcd₀ : LCDState := ⟨0, 0, []⟩

/-- `lcd.setCursor(c, r)`. -/
def lcdSetCursor (d : LCDState) (c : ℤ) (r : Nat) : LCDState :=
  ⟨c, r, d.writes⟩

/-- `lcd.write(v)`: writes one cell at the cursor and advances it. -/
def lcdWrite (d : LCDState) (v : ℤ) : LCDState :=
  ⟨d.col + 1, d.row, d.writes ++ [(d.col, d.row, v)]⟩

/-- Several consecutive `lcd.write`s. -/
def lcdWriteList (d : LCDState) (vs : List ℤ) : LCDState :=
  vs.foldl lcdWrite d

/-- Decimal digit characters of `n`, most significant first
(`Print::printNumber`). -/
def digitChars : Nat → Nat → List ℤ
  | 0, _ => []
  | _ + 1, n => if n < 10 then [48 + (n : ℤ)] else
      digitChars n (n / 10) ++ [48 + ((n % 10 : Nat) : ℤ)]

/-- Characters printed by `lcd.print(n)` for a nonnegative integer. -/
def natDigitChars (n : Nat) : List ℤ := digitChars (n + 1) n

/-- Characters printed by `lcd.print(f, 1)` for a nonnegative float:
integer part, a dot, and one rounded decimal digit. -/
def printFloat1 (f : ℚ) : List ℤ :=
  let n : Nat := (⌊f * 10 + 1 / 2⌋).toNat
  natDigitChars (n / 10) ++ [46, 48 + ((n % 10 : Nat) : ℤ)]

/-! ### `updateScale()` (lines 96-115) -/

/-- `int lcdBase = (frequency - 88) * 4; if(lcdBase > 79) lcdBase = 79;` -/
def lcdBase (f : ℚ) : ℤ :=
  if ctrunc ((f - 88) * 4) > 79 then 79 else ctrunc ((f - 88) * 4)

/-- `int lcdMajor = lcdBase / 5;` (C division truncates toward zero). -/
def lcdMajor (f : ℚ) : ℤ := (lcdBase f).tdiv 5

/-- `int lcdMinor = lcdBase % 5;` (C remainder). -/
def lcdMinor (f : ℚ) : ℤ := (lcdBase f).tmod 5

/-- `updateScale()`: moves the needle over the radio scale on row 0. -/
def updateScale (f : ℚ) (d : LCDState) : LCDState :=
  let d1 := if lcdMajor f > 0 then
      lcdWrite (lcdSetCursor d (lcdMajor f - 1) 0) SCALE_CLEAR
    else lcdSetCursor d (lcdMajor f) 0
  let d2 := lcdWrite d1 (lcdMinor f)
  if lcdMajor f < 15 then lcdWrite d2 SCALE_CLEAR else d2

/-- The writes one run of `updateScale` performs (the initial cursor is
irrelevant: the function starts with `setCursor`). -/
def updateScaleWrites (f : ℚ) : List (ℤ × Nat × ℤ) :=
  (updateScale f lcd₀).writes

/-! ### Interrupt handlers (lines 122-141) -/

/-- `isrEncoder()`: after debounce, sets `ST_GO_UP` when encoder line B is
high, else `ST_GO_DOWN`. -/
def isrEncoder (st : Nat) (encoderB : Bool) : Nat :=
  if encoderB then bitWrite st ST_GO_UP true else bitWrite st ST_GO_DOWN true

/-- `isrSwitch()`: after debounce, negates `ST_AUTO`. -/
def isrSwitch (st : Nat) : Nat :=
  if bitRead st ST_AUTO then bitWrite st ST_AUTO false
  else bitWrite st ST_AUTO true

/-! ### Tuner peripheral interface -/

/-- One status snapshot pulled from the tuner: reported frequency in
hertz, stereo pilot flag, signal level (0..15). -/
structure Snapshot where
  hz : ℚ
  stereo : Bool
  signalLevel : Nat
deriving DecidableEq

/-- Commands the loop issues to the tuner peripheral. -/
inductive Cmd where
  | setFrequency (mhz : ℚ)
  | searchUp
  | searchDown
deriving DecidableEq

/-- Per-iteration external input: the snapshot (if `Radio.read_status`
returned 1) and whether `Radio.process_search` reports completion when
polled. -/
structure Input where
  reading : Option Snapshot
  searchComplete : Bool

/-! ### Controller state and the `loop()` body (lines 224-307) -/

/-- Mutable globals of the sketch: `float frequency` and `byte status`. -/
structure RState where
  frequency : ℚ
  status : Nat
deriving DecidableEq

/-- Line 236: `frequency = floor(frequency_available(buf) / 100000 + .5) / 10`. -/
def snapFreq (hz : ℚ) : ℚ := ((⌊hz / 100000 + 1 / 2⌋ : ℤ) : ℚ) / 10

/-- Line 239: `signalLevel = (signal_level(buf) * 100) / 15` in `int`
arithmetic. -/
def signalPercent (lv : Nat) : Nat := lv * 100 / 15

/-- Lines 234-263: if a snapshot is available, adopt its frequency and
refresh the dial scale, signal, frequency and stereo fields. -/
def refreshPhase (s : RState) (r : Option Snapshot) (d : LCDState) :
    RState × LCDState :=
  match r with
  | none => (s, d)
  | some snap =>
    let freq := snapFreq snap.hz
    let lv := signalPercent snap.signalLevel
    let d := updateScale freq d
    let d := lcdSetCursor d 0 1
    let d := lcdWrite d 183
    let d := if lv < 100 then lcdWrite d 32 else d
    let d := lcdWriteList d (natDigitChars lv)
    let d := lcdWrite d 37
    let d := lcdSetCursor d 6 1
    let d := if freq < 100 then lcdWrite d 32 else d
    let d := lcdWriteList d (printFloat1 freq)
    let d := lcdSetCursor d 14 1
    let d := if snap.stereo then lcdWrite (lcdWrite d STEREO_CHAR_S) STEREO_CHAR_T
      else lcdWriteList d [32, 32]
    (⟨freq, s.status⟩, d)

/-- Lines 265-269: while `ST_SEARCH` is set, poll the search and clear the
flag once the peripheral reports completion. -/
def searchPhase (st : Nat) (complete : Bool) : Nat :=
  if bitRead st ST_SEARCH then
    if complete then bitWrite st ST_SEARCH false else st
  else st

/-- Lines 272-287: handling of a pending `ST_GO_UP` event. -/
def goUpPhase (s : RState) : RState × List Cmd :=
  if bitRead s.status ST_GO_UP then
    if bitRead s.status ST_AUTO && !bitRead s.status ST_SEARCH then
      (⟨s.frequency, bitWrite (bitWrite s.status ST_SEARCH true) ST_GO_UP false⟩,
        [Cmd.searchUp])
    else
      if s.frequency < 108 then
        (⟨s.frequency + 1 / 10, bitWrite s.status ST_GO_UP false⟩,
          [Cmd.setFrequency (s.frequency + 1 / 10)])
      else (⟨s.frequency, bitWrite s.status ST_GO_UP false⟩, [])
  else (s, [])

/-- Lines 290-305: handling of a pending `ST_GO_DOWN` event. -/
def goDownPhase (s : RState) : RState × List Cmd :=
  if bitRead s.status ST_GO_DOWN then
    if bitRead s.status ST_AUTO && !bitRead s.status ST_SEARCH then
      (⟨s.frequency, bitWrite (bitWrite s.status ST_SEARCH true) ST_GO_DOWN false⟩,
        [Cmd.searchDown])
    else
      if s.frequency > 88 then
        (⟨s.frequency - 1 / 10, bitWrite s.status ST_GO_DOWN false⟩,
          [Cmd.setFrequency (s.frequency - 1 / 10)])
      else (⟨s.frequency, bitWrite s.status ST_GO_DOWN false⟩, [])
  else (s, [])

/-- One full `loop()` iteration: auto/manual letter, display refresh,
search polling, then the two encoder-event phases.  Returns the new
globals, the tuner commands issued and the LCD pass performed. -/
def loopIter (s : RState) (inp : Input) : RState × List Cmd × LCDState :=
  let d := lcdWrite (lcdSetCursor lcd₀ 12 1)
    (if bitRead s.status ST_AUTO then 65 else 77)
  let (s1, d1) := refreshPhase s inp.reading d
  let s2 : RState := ⟨s1.frequency, searchPhase s1.status inp.searchComplete⟩
  let (s3, c1) := goUpPhase s2
  let (s4, c2) := goDownPhase s3
  (s4, c1 ++ c2, d1)

/-- State after `setup()`: `frequency = 88`, all flags clear. -/
def initState : RState := ⟨88, 0⟩

/-- States reachable from `initState` by interleaving interrupt-handler
invocations and loop iterations whose external inputs satisfy `good`. -/
inductive ReachableWith (good : Input → Prop) : RState → Prop where
  | init : ReachableWith good initState
  | encoder {s : RState} (b : Bool) (h : ReachableWith good s) :
      ReachableWith good ⟨s.frequency, isrEncoder s.status b⟩
  | switch {s : RState} (h : ReachableWith good s) :
      ReachableWith good ⟨s.frequency, isrSwitch s.status⟩
  | iter {s : RState} (inp : Input) (hg : good inp) (h : ReachableWith good s) :
      ReachableWith good (loopIter s inp).1

/-- Reachability with a completely unconstrained environment. -/
def Reachable (s : RState) : Prop := ReachableWith (fun _ => True) s

/-- A snapshot is in-band when the frequency the controller derives from
it lies on the FM dial `[88, 108]`. -/
def goodInput (inp : Input) : Prop :=
  ∀ snap, inp.reading = some snap →
    88 ≤ snapFreq snap.hz ∧ snapFreq snap.hz ≤ 108

/-- `f` is an exact multiple of 0.1 MHz. -/
def onGrid (f : ℚ) : Prop := ∃ k : ℤ, f = (k : ℚ) / 10

/-- Frequency adopted during the refresh phase. -/
def freqOf (s : RState) (r : Option Snapshot) : ℚ :=
  match r with
  | none => s.frequency
  | some snap => snapFreq snap.hz

/-- The spec's formula for the needle position, written exactly as the
spec words it: clamp `(frequency − 88) × 4` into `[0, 79]`, then truncate
to an integer. -/
def specScalePosition (f : ℚ) : ℤ := ⌊max 0 (min ((f - 88) * 4) 79)⌋

/-- Contents of display row 0 after applying a list of cell writes to a
previous row state (writes to row 1 do not affect row 0). -/
def applyWrites (r : ℤ → ℤ) (ws : List (ℤ × Nat × ℤ)) : ℤ → ℤ :=
  ws.foldl (fun g w => fun c => if w.2.1 = 0 ∧ w.1 = c then w.2.2 else g c) r

/-- The glyph ids 0..4 are the five needle sub-position characters. -/
def isNeedleGlyph (g : ℤ) : Prop := 0 ≤ g ∧ g ≤ 4

/-- Row 0 as `setup()` leaves it: sixteen blank scale characters. -/
def scaleRow0 : ℤ → ℤ := fun _ => SCALE_CLEAR

/-- Row 0 after the dial is drawn for 88.0 MHz and then for 108.0 MHz. -/
def rowAfterJump : ℤ → ℤ :=
  applyWrites (applyWrites scaleRow0 (updateScaleWrites 88)) (updateScaleWrites 108)

/-- A write that puts a needle glyph somewhere on row 0. -/
def isNeedleWrite (w : ℤ × Nat × ℤ) : Bool :=
  w.2.1 == 0 && decide (0 ≤ w.2.2) && decide (w.2.2 ≤ 4)

/-- A tuner that echoes the currently tuned frequency: the snapshot
reports `f` MHz in hertz; no search is pending. -/
def echoInput (f : ℚ) : Input := ⟨some ⟨f * 1000000, false, 7⟩, false⟩

/-- One scenario step: the encoder is turned clockwise (setting `goUp`),
then one loop iteration runs with an echoing tuner. -/
def scenarioStep (s : RState) : RState × List Cmd × LCDState :=
  loopIter ⟨s.frequency, isrEncoder s.status true⟩ (echoInput s.frequency)

/-- `n` scenario steps from the initial state, accumulating the tuner
commands and the LCD writes of every iteration. -/
def runScenario : Nat → RState × List Cmd × List (ℤ × Nat × ℤ)
  | 0 => (initState, [], [])
  | n + 1 =>
    let p := runScenario n
    let q := scenarioStep p.1
    (q.1, p.2.1 ++ q.2.1, p.2.2 ++ q.2.2.writes)

/-- The state after one loop iteration in which the tuner reports a
snapshot of 150 MHz (out of band) to the freshly initialized controller. -/
def badSnapState : RState :=
  (loopIter initState ⟨some ⟨150000000, false, 0⟩, false⟩).1

end TEA5767

namespace TEA5767

/-! ### Helper lemmas about the status register -/

theorem testBit_bitWrite (s j i : Nat) (hi : i < 8) (hj : j < 8) (v : Bool) :
    bitRead (bitWrite s j v) i = if i = j then v else bitRead s i := by
  have h255 : Nat.testBit 255 i = true := by
    have h8 : (255 : Nat) = 2 ^ 8 - 1 := by norm_num
    rw [h8, Nat.testBit_two_pow_sub_one]
    simpa using hi
  unfold bitRead bitWrite
  rcases eq_or_ne i j with h | h
  · subst h
    cases v <;>
      simp [Nat.testBit_or, Nat.testBit_and, Nat.testBit_xor, Nat.shiftLeft_eq,
        Nat.testBit_two_pow, h255]
  · have hne : j ≠ i := h.symm
    cases v <;>
      simp [Nat.testBit_or, Nat.testBit_and, Nat.testBit_xor, Nat.shiftLeft_eq,
        Nat.testBit_two_pow, h255, h, hne]

/-! ### Shape lemmas for the two encoder-event phases -/

theorem goUpPhase_idle (s : RState) (h : bitRead s.status ST_GO_UP = false) :
    goUpPhase s = (s, []) := by
  simp [goUpPhase, h]

theorem goUpPhase_search (s : RState) (h1 : bitRead s.status ST_GO_UP = true)
    (h2 : bitRead s.status ST_AUTO = true) (h3 : bitRead s.status ST_SEARCH = false) :
    goUpPhase s = (⟨s.frequency,
      bitWrite (bitWrite s.status ST_SEARCH true) ST_GO_UP false⟩, [Cmd.searchUp]) := by
  simp [goUpPhase, h1, h2, h3]

theorem goUpPhase_manual (s : RState) (h1 : bitRead s.status ST_GO_UP = true)
    (h2 : bitRead s.status ST_AUTO = false ∨ bitRead s.status ST_SEARCH = true)
    (h3 : s.frequency < 108) :
    goUpPhase s = (⟨s.frequency + 1 / 10, bitWrite s.status ST_GO_UP false⟩,
      [Cmd.setFrequency (s.frequency + 1 / 10)]) := by
  rcases h2 with h2 | h2 <;> simp [goUpPhase, h1, h2, h3]

theorem goUpPhase_clamped (s : RState) (h1 : bitRead s.status ST_GO_UP = true)
    (h2 : bitRead s.status ST_AUTO = false ∨ bitRead s.status ST_SEARCH = true)
    (h3 : ¬ s.frequency < 108) :
    goUpPhase s = (⟨s.frequency, bitWrite s.status ST_GO_UP false⟩, []) := by
  rcases h2 with h2 | h2 <;> simp [goUpPhase, h1, h2, h3]

theorem goDownPhase_idle (s : RState) (h : bitRead s.status ST_GO_DOWN = false) :
    goDownPhase s = (s, []) := by
  simp [goDownPhase, h]

theorem goDownPhase_search (s : RState) (h1 : bitRead s.status ST_GO_DOWN = true)
    (h2 : bitRead s.status ST_AUTO = true) (h3 : bitRead s.status ST_SEARCH = false) :
    goDownPhase s = (⟨s.frequency,
      bitWrite (bitWrite s.status ST_SEARCH true) ST_GO_DOWN false⟩, [Cmd.searchDown]) := by
  simp [goDownPhase, h1, h2, h3]

theorem goDownPhase_manual (s : RState) (h1 : bitRead s.status ST_GO_DOWN = true)
    (h2 : bitRead s.status ST_AUTO = false ∨ bitRead s.status ST_SEARCH = true)
    (h3 : s.frequency > 88) :
    goDownPhase s = (⟨s.frequency - 1 / 10, bitWrite s.status ST_GO_DOWN false⟩,
      [Cmd.setFrequency (s.frequency - 1 / 10)]) := by
  rcases h2 with h2 | h2 <;> simp [goDownPhase, h1, h2, h3]

theorem goDownPhase_clamped (s : RState) (h1 : bitRead s.status ST_GO_DOWN = true)
    (h2 : bitRead s.status ST_AUTO = false ∨ bitRead s.status ST_SEARCH = true)
    (h3 : ¬ s.frequency > 88) :
    goDownPhase s = (⟨s.frequency, bitWrite s.status ST_GO_DOWN false⟩, []) := by
  rcases h2 with h2 | h2 <;> simp [goDownPhase, h1, h2, h3]

theorem refreshPhase_fst (s : RState) (r : Option Snapshot) (d : LCDState) :
    (refreshPhase s r d).1 = ⟨freqOf s r, s.status⟩ := by
  cases r <;> rfl

/-- The state and command components of one loop iteration, decomposed
into the three status-mutating phases. -/
theorem loopIter_state (s : RState) (inp : Input) :
    (loopIter s inp).1 =
      (goDownPhase (goUpPhase ⟨freqOf s inp.reading,
        searchPhase s.status inp.searchComplete⟩).1).1 ∧
    (loopIter s inp).2.1 =
      (goUpPhase ⟨freqOf s inp.reading, searchPhase s.status inp.searchComplete⟩).2 ++
      (goDownPhase (goUpPhase ⟨freqOf s inp.reading,
        searchPhase s.status inp.searchComplete⟩).1).2 := by
  obtain ⟨r, c⟩ := inp
  cases r <;> simp [loopIter, refreshPhase, freqOf]

/-! ### C5: the scale mapping -/

/-- **C5** For every frequency in [88, 108] the code's `lcdBase` equals the
spec's clamped position, `lcdMajor`/`lcdMinor` are its quotient and
remainder by 5 in the mathematical sense, they lie in 0..15 and 0..4, and
the endpoints map to (0,0) and (15,4). -/
theorem scale_mapping_spec (f : ℚ) (h88 : 88 ≤ f) (h108 : f ≤ 108) :
    lcdBase f = specScalePosition f ∧
    lcdMajor f = lcdBase f / 5 ∧ lcdMinor f = lcdBase f % 5 ∧
    0 ≤ lcdMajor f ∧ lcdMajor f ≤ 15 ∧ 0 ≤ lcdMinor f ∧ lcdMinor f ≤ 4 ∧
    (lcdMajor 88 = 0 ∧ lcdMinor 88 = 0) ∧
    (lcdMajor 108 = 15 ∧ lcdMinor 108 = 4) := by
  have hx0 : (0 : ℚ) ≤ (f - 88) * 4 := by linarith
  have hct : ctrunc ((f - 88) * 4) = ⌊(f - 88) * 4⌋ := by
    unfold ctrunc
    rw [if_neg (not_lt.mpr hx0)]
  have hbmin : lcdBase f = min ⌊(f - 88) * 4⌋ 79 := by
    unfold lcdBase
    rw [hct]
    split <;> omega
  have hb0 : 0 ≤ lcdBase f := by
    rw [hbmin]
    have := Int.floor_nonneg.mpr hx0
    omega
  have hb79 : lcdBase f ≤ 79 := by rw [hbmin]; omega
  have hspec : lcdBase f = specScalePosition f := by
    unfold specScalePosition
    rw [max_eq_right (le_min hx0 (by norm_num))]
    rcases le_total ((f - 88) * 4) 79 with hle | hle
    · rw [min_eq_left hle, hbmin, min_eq_left]
      have : (⌊(f - 88) * 4⌋ : ℚ) ≤ 79 := le_trans (Int.floor_le _) hle
      exact_mod_cast this
    · rw [min_eq_right hle, hbmin, min_eq_right]
      · norm_num
      · have : (79 : ℤ) = ⌊(79 : ℚ)⌋ := by norm_num
        rw [this]
        exact Int.floor_le_floor hle
  have hdiv : lcdMajor f = lcdBase f / 5 :=
    Int.tdiv_eq_ediv hb0 (by norm_num)
  have hmod : lcdMinor f = lcdBase f % 5 :=
    Int.tmod_eq_emod hb0 (by norm_num)
  refine ⟨hspec, hdiv, hmod, ?_, ?_, ?_, ?_, ?_, ?_⟩
  · rw [hdiv]; omega
  · rw [hdiv]; omega
  · rw [hmod]; omega
  · rw [hmod]; omega
  · constructor <;> norm_num [lcdMajor, lcdMinor, lcdBase, ctrunc, Int.tdiv, Int.tmod]
  · constructor <;> norm_num [lcdMajor, lcdMinor, lcdBase, ctrunc, Int.tdiv, Int.tmod]

theorem scale_mapping_spec_witness :
    lcdBase 100 = specScalePosition 100 ∧
    lcdMajor 100 = lcdBase 100 / 5 ∧ lcdMinor 100 = lcdBase 100 % 5 ∧
    0 ≤ lcdMajor 100 ∧ lcdMajor 100 ≤ 15 ∧ 0 ≤ lcdMinor 100 ∧ lcdMinor 100 ≤ 4 ∧
    (lcdMajor 88 = 0 ∧ lcdMinor 88 = 0) ∧
    (lcdMajor 108 = 15 ∧ lcdMinor 108 = 4) :=
  scale_mapping_spec 100 (by norm_num) (by norm_num)

/-! ### C9: the signal percentage -/

/-- **C9** For every signal level in 0..15, the percentage printed by the
refresh phase equals the real floor of `level × 100 / 15`; level 15 gives
100 and level 0 gives 0. -/
theorem signal_percent_spec (lv : Nat) (h : lv ≤ 15) :
    (signalPercent lv : ℤ) = ⌊((lv : ℚ) * 100) / 15⌋ ∧
    signalPercent 15 = 100 ∧ signalPercent 0 = 0 := by
  refine ⟨?_, by norm_num [signalPercent], by norm_num [signalPercent]⟩
  interval_cases lv <;> norm_num [signalPercent]

theorem signal_percent_spec_witness :
    (signalPercent 7 : ℤ) = ⌊((7 : ℚ) * 100) / 15⌋ ∧
    signalPercent 15 = 100 ∧ signalPercent 0 = 0 :=
  signal_percent_spec 7 (by norm_num)

end TEA5767

namespace TEA5767

/-! ### C2: manual tuning at the band edges -/

/-- **C2 counterexample** In the manual branch (goUp pending, auto mode
off), a `goUp` event at frequency 107.95 sets the frequency to 108.05,
not 108.0: the guard tests the pre-step value and nothing clamps the
result, refuting the claimed clamp-before-overshoot. -/
theorem manual_goUp_overshoot_cex :
    (goUpPhase ⟨2159 / 20, 4⟩).1.frequency = 2161 / 20 ∧
    ((2161 : ℚ) / 20 ≠ 108) := by
  constructor
  · rw [goUpPhase_manual _ (by decide) (Or.inl (by decide)) (by norm_num)]
    norm_num
  · norm_num

/-- **C2 amended** In manual tuning, on frequencies that are exact
multiples of 0.1 MHz (the only ones the program can reach), the claimed
boundary behaviour holds: `goUp` at 108.0 leaves the frequency unchanged
and issues no retune, `goUp` below 108 steps by exactly +0.1 and cannot
exceed 108 — from 107.9 it reaches exactly 108.0 — and `goDown` is
symmetric with a floor at 88.0 (no-op at exactly 88.0, never below 88.0
from a frequency at or above 88.0).  At the off-grid frequency 107.95 the
code overshoots to 108.05 (see the counterexample). -/
theorem manual_step_grid (s t : RState) (k m : ℤ)
    (hsk : s.frequency = (k : ℚ) / 10)
    (hup : bitRead s.status ST_GO_UP = true)
    (hsauto : bitRead s.status ST_AUTO = false)
    (htm : t.frequency = (m : ℚ) / 10)
    (hdn : bitRead t.status ST_GO_DOWN = true)
    (htauto : bitRead t.status ST_AUTO = false) :
    (s.frequency = 108 → (goUpPhase s).1.frequency = s.frequency ∧ (goUpPhase s).2 = []) ∧
    (s.frequency < 108 → (goUpPhase s).1.frequency = s.frequency + 1 / 10 ∧
      (goUpPhase s).1.frequency ≤ 108 ∧
      (goUpPhase s).2 = [Cmd.setFrequency (s.frequency + 1 / 10)]) ∧
    (s.frequency = 1079 / 10 → (goUpPhase s).1.frequency = 108) ∧
    (t.frequency = 88 → (goDownPhase t).1.frequency = t.frequency ∧ (goDownPhase t).2 = []) ∧
    (t.frequency > 88 → (goDownPhase t).1.frequency = t.frequency - 1 / 10 ∧
      88 ≤ (goDownPhase t).1.frequency ∧
      (goDownPhase t).2 = [Cmd.setFrequency (t.frequency - 1 / 10)]) ∧
    (88 ≤ t.frequency → 88 ≤ (goDownPhase t).1.frequency) := by
  have hup2 : s.frequency < 108 →
      (goUpPhase s).1.frequency = s.frequency + 1 / 10 ∧
      (goUpPhase s).1.frequency ≤ 108 ∧
      (goUpPhase s).2 = [Cmd.setFrequency (s.frequency + 1 / 10)] := by
    intro h
    have h10 : (k : ℚ) < 1080 := by
      rw [hsk] at h
      linarith
    have hkz : k < 1080 := by exact_mod_cast h10
    have hkq : (k : ℚ) ≤ 1079 := by
      have : k ≤ 1079 := by omega
      exact_mod_cast this
    rw [goUpPhase_manual s hup (Or.inl hsauto) h]
    refine ⟨rfl, ?_, rfl⟩
    rw [hsk]
    linarith
  have hdn2 : t.frequency > 88 →
      (goDownPhase t).1.frequency = t.frequency - 1 / 10 ∧
      88 ≤ (goDownPhase t).1.frequency ∧
      (goDownPhase t).2 = [Cmd.setFrequency (t.frequency - 1 / 10)] := by
    intro h
    have h10 : (880 : ℚ) < (m : ℚ) := by
      rw [htm] at h
      linarith
    have hmz : (880 : ℤ) < m := by exact_mod_cast h10
    have hmq : (881 : ℚ) ≤ (m : ℚ) := by
      have : (881 : ℤ) ≤ m := by omega
      exact_mod_cast this
    rw [goDownPhase_manual t hdn (Or.inl htauto) h]
    refine ⟨rfl, ?_, rfl⟩
    rw [htm]
    linarith
  refine ⟨?_, hup2, ?_, ?_, hdn2, ?_⟩
  · intro h
    rw [goUpPhase_clamped s hup (Or.inl hsauto) (by rw [h]; norm_num)]
    exact ⟨rfl, rfl⟩
  · intro h
    have h' : s.frequency < 108 := by rw [h]; norm_num
    obtain ⟨e, -, -⟩ := hup2 h'
    rw [e, h]
    norm_num
  · intro h
    rw [goDownPhase_clamped t hdn (Or.inl htauto) (by rw [h]; norm_num)]
    exact ⟨rfl, rfl⟩
  · intro h
    rcases lt_or_eq_of_le h with h' | h'
    · exact (hdn2 h').2.1
    · rw [goDownPhase_clamped t hdn (Or.inl htauto) (by rw [← h']; norm_num)]
      exact h

theorem manual_step_grid_witness :
    (goUpPhase ⟨1079 / 10, 4⟩).1.frequency = 108 ∧
    88 ≤ (goDownPhase ⟨88, 8⟩).1.frequency :=
  ⟨(manual_step_grid ⟨1079 / 10, 4⟩ ⟨88, 8⟩ 1079 880 (by norm_num) (by decide)
      (by decide) (by norm_num) (by decide) (by decide)).2.2.1 (by norm_num),
   (manual_step_grid ⟨1079 / 10, 4⟩ ⟨88, 8⟩ 1079 880 (by norm_num) (by decide)
      (by decide) (by norm_num) (by decide) (by decide)).2.2.2.2.2 (by norm_num)⟩

end TEA5767

namespace TEA5767

/-! ### C3: events arriving while a search is in progress -/

/-- **C3 counterexample** With `autoMode`, `searching` and `goUp` all set
(status 21 = bits 0,2,4) and frequency 88.0, processing the pending
`goUp` is *not* a drop: the else-branch runs a manual tuning step, the
frequency changes to 88.1 and a retune command is issued to the tuner. -/
theorem search_pending_event_cex :
    bitRead 21 ST_SEARCH = true ∧ bitRead 21 ST_GO_UP = true ∧
    (goUpPhase ⟨88, 21⟩).1.frequency = 881 / 10 ∧
    (goUpPhase ⟨88, 21⟩).2 = [Cmd.setFrequency (881 / 10)] := by
  refine ⟨by decide, by decide, ?_, ?_⟩ <;>
    rw [goUpPhase_manual _ (by decide) (Or.inr (by decide)) (by norm_num)] <;>
    norm_num

/-- **C3 amended** Entering the searching state does require
`autoMode = true` and `searching = false` (a search command is only ever
issued under those two conditions).  While `searching` is set, a pending
`goUp`/`goDown` event starts no second search and leaves `searching`
untouched — but it is not dropped: it falls into the manual-tuning
else-branch, which (within the range guards) steps the frequency by
0.1 MHz, issues a retune command, and clears the event flag. -/
theorem search_exclusive_amended (s : RState)
    (hsearch : bitRead s.status ST_SEARCH = true) :
    (Cmd.searchUp ∉ (goUpPhase s).2 ∧ Cmd.searchDown ∉ (goUpPhase s).2 ∧
     Cmd.searchUp ∉ (goDownPhase s).2 ∧ Cmd.searchDown ∉ (goDownPhase s).2) ∧
    (bitRead (goUpPhase s).1.status ST_SEARCH = true ∧
     bitRead (goDownPhase s).1.status ST_SEARCH = true) ∧
    (bitRead s.status ST_GO_UP = true → s.frequency < 108 →
      (goUpPhase s).1.frequency = s.frequency + 1 / 10 ∧
      (goUpPhase s).2 = [Cmd.setFrequency (s.frequency + 1 / 10)] ∧
      bitRead (goUpPhase s).1.status ST_GO_UP = false) ∧
    (bitRead s.status ST_GO_DOWN = true → s.frequency > 88 →
      (goDownPhase s).1.frequency = s.frequency - 1 / 10 ∧
      (goDownPhase s).2 = [Cmd.setFrequency (s.frequency - 1 / 10)] ∧
      bitRead (goDownPhase s).1.status ST_GO_DOWN = false) ∧
    (∀ t : RState, Cmd.searchUp ∈ (goUpPhase t).2 →
      bitRead t.status ST_AUTO = true ∧ bitRead t.status ST_SEARCH = false) ∧
    (∀ t : RState, Cmd.searchDown ∈ (goDownPhase t).2 →
      bitRead t.status ST_AUTO = true ∧ bitRead t.status ST_SEARCH = false) := by
  refine ⟨⟨?_, ?_, ?_, ?_⟩, ⟨?_, ?_⟩, ?_, ?_, ?_, ?_⟩
  · unfold goUpPhase
    split_ifs with h1 h2 h3 <;> simp_all
  · unfold goUpPhase
    split_ifs with h1 h2 h3 <;> simp_all
  · unfold goDownPhase
    split_ifs with h1 h2 h3 <;> simp_all
  · unfold goDownPhase
    split_ifs with h1 h2 h3 <;> simp_all
  · unfold goUpPhase
    split_ifs with h1 h2 h3 <;>
      simp_all [testBit_bitWrite, ST_GO_UP, ST_SEARCH]
  · unfold goDownPhase
    split_ifs with h1 h2 h3 <;>
      simp_all [testBit_bitWrite, ST_GO_DOWN, ST_SEARCH]
  · intro hup hf
    rw [goUpPhase_manual s hup (Or.inr hsearch) hf]
    refine ⟨rfl, rfl, ?_⟩
    simp [testBit_bitWrite, ST_GO_UP]
  · intro hdn hf
    rw [goDownPhase_manual s hdn (Or.inr hsearch) hf]
    refine ⟨rfl, rfl, ?_⟩
    simp [testBit_bitWrite, ST_GO_DOWN]
  · intro t ht
    unfold goUpPhase at ht
    split_ifs at ht with h1 h2 h3 <;> simp_all
  · intro t ht
    unfold goDownPhase at ht
    split_ifs at ht with h1 h2 h3 <;> simp_all

theorem search_exclusive_amended_witness :
    Cmd.searchUp ∉ (goUpPhase ⟨88, 21⟩).2 ∧
    bitRead (goUpPhase ⟨88, 21⟩).1.status ST_SEARCH = true :=
  ⟨((search_exclusive_amended ⟨88, 21⟩ (by decide)).1).1,
   ((search_exclusive_amended ⟨88, 21⟩ (by decide)).2.1).1⟩

end TEA5767

namespace TEA5767

/-! ### C4: who sets and who clears the shared flags -/

theorem searchPhase_bit_ne (st : Nat) (c : Bool) (i : Nat) (hi : i < 8)
    (h : i ≠ ST_SEARCH) :
    bitRead (searchPhase st c) i = bitRead st i := by
  unfold searchPhase
  split_ifs <;> simp_all [testBit_bitWrite, ST_SEARCH]

theorem goUpPhase_bit_ne (s : RState) (i : Nat) (hi : i < 8)
    (h2 : i ≠ ST_GO_UP) (h4 : i ≠ ST_SEARCH) :
    bitRead (goUpPhase s).1.status i = bitRead s.status i := by
  unfold goUpPhase
  split_ifs <;> simp_all [testBit_bitWrite, ST_GO_UP, ST_SEARCH]

theorem goDownPhase_bit_ne (s : RState) (i : Nat) (hi : i < 8)
    (h3 : i ≠ ST_GO_DOWN) (h4 : i ≠ ST_SEARCH) :
    bitRead (goDownPhase s).1.status i = bitRead s.status i := by
  unfold goDownPhase
  split_ifs <;> simp_all [testBit_bitWrite, ST_GO_DOWN, ST_SEARCH]

theorem goUpPhase_goUp_mono (s : RState) :
    bitRead (goUpPhase s).1.status ST_GO_UP = true →
    bitRead s.status ST_GO_UP = true := by
  unfold goUpPhase
  split_ifs with h1 h2 h3 <;> intro h <;>
    simp_all [testBit_bitWrite, ST_GO_UP, ST_SEARCH]

theorem goDownPhase_goDown_mono (s : RState) :
    bitRead (goDownPhase s).1.status ST_GO_DOWN = true →
    bitRead s.status ST_GO_DOWN = true := by
  unfold goDownPhase
  split_ifs with h1 h2 h3 <;> intro h <;>
    simp_all [testBit_bitWrite, ST_GO_DOWN, ST_SEARCH]

theorem loopIter_bit_preserved (s : RState) (inp : Input) (i : Nat) (hi : i < 8)
    (h2 : i ≠ ST_GO_UP) (h3 : i ≠ ST_GO_DOWN) (h4 : i ≠ ST_SEARCH) :
    bitRead (loopIter s inp).1.status i = bitRead s.status i := by
  obtain ⟨hstate, -⟩ := loopIter_state s inp
  rw [hstate, goDownPhase_bit_ne _ i hi h3 h4, goUpPhase_bit_ne _ i hi h2 h4]
  dsimp only
  rw [searchPhase_bit_ne _ _ i hi h4]

theorem loopIter_bit_mono (s : RState) (inp : Input) (i : Nat) (hi : i < 8)
    (h4 : i ≠ ST_SEARCH) :
    bitRead (loopIter s inp).1.status i = true →
    bitRead s.status i = true := by
  obtain ⟨hstate, -⟩ := loopIter_state s inp
  rw [hstate]
  intro h
  have hX : bitRead (⟨freqOf s inp.reading,
      searchPhase s.status inp.searchComplete⟩ : RState).status i = true := by
    rcases eq_or_ne i ST_GO_DOWN with hdn | hdn
    · subst hdn
      rcases eq_or_ne ST_GO_DOWN ST_GO_UP with hq | hq
      · exact absurd hq (by decide)
      · have h' := goDownPhase_goDown_mono _ h
        rw [goUpPhase_bit_ne _ _ hi hq h4] at h'
        exact h'
    · rw [goDownPhase_bit_ne _ i hi hdn h4] at h
      rcases eq_or_ne i ST_GO_UP with hup | hup
      · subst hup
        exact goUpPhase_goUp_mono _ h
      · rw [goUpPhase_bit_ne _ i hi hup h4] at h
        exact h
  have hX2 : bitRead (searchPhase s.status inp.searchComplete) i = true := hX
  rw [searchPhase_bit_ne _ _ i hi h4] at hX2
  exact hX2

/-- **C4 counterexample** Two violations of the claimed discipline:
`isrSwitch` on a register with `autoMode` set performs a 1-to-0 flag
transition, and one loop iteration starting from status 5 (`autoMode` and
`goUp` set, `searching` clear) *sets* the `searching` flag in the shared
register. -/
theorem controller_sets_search_cex :
    (bitRead 1 ST_AUTO = true ∧ bitRead (isrSwitch 1) ST_AUTO = false) ∧
    bitRead 5 ST_SEARCH = false ∧
    bitRead (loopIter ⟨88, 5⟩ ⟨none, false⟩).1.status ST_SEARCH = true := by
  refine ⟨⟨by decide, by decide⟩, by decide, ?_⟩
  obtain ⟨hstate, -⟩ := loopIter_state ⟨88, 5⟩ ⟨none, false⟩
  rw [hstate]
  dsimp only [freqOf]
  have e1 : searchPhase (5 : Nat) false = 5 := by decide
  rw [e1, goUpPhase_search _ (by decide) (by decide) (by decide)]
  dsimp only
  rw [goDownPhase_idle _ (by decide)]
  decide

/-- **C4 amended** The actual flag discipline: `isrEncoder` only sets
flags (it never clears any bit, and equals a single `bitWrite` of the
direction flag); `isrSwitch` *toggles* `autoMode` (so it performs 1-to-0
transitions) and touches no other flag; the controller loop never sets
`goUp`/`goDown` (a flag set after an iteration was already set before)
and never changes `autoMode` or `stereo`, but it does set the `searching`
flag when it starts a search (see the counterexample). -/
theorem flag_discipline_amended (st i : Nat) (b : Bool) (s : RState) (inp : Input)
    (hi : i < 8) :
    (bitRead st i = true → bitRead (isrEncoder st b) i = true) ∧
    (isrEncoder st b = bitWrite st (if b then ST_GO_UP else ST_GO_DOWN) true) ∧
    (bitRead (isrSwitch st) ST_AUTO = !bitRead st ST_AUTO) ∧
    (i ≠ ST_AUTO → bitRead (isrSwitch st) i = bitRead st i) ∧
    (bitRead (loopIter s inp).1.status ST_GO_UP = true →
      bitRead s.status ST_GO_UP = true) ∧
    (bitRead (loopIter s inp).1.status ST_GO_DOWN = true →
      bitRead s.status ST_GO_DOWN = true) ∧
    (bitRead (loopIter s inp).1.status ST_AUTO = bitRead s.status ST_AUTO) ∧
    (bitRead (loopIter s inp).1.status ST_STEREO = bitRead s.status ST_STEREO) := by
  refine ⟨?_, ?_, ?_, ?_, ?_, ?_, ?_, ?_⟩
  · intro h
    unfold isrEncoder
    split_ifs <;> simp_all [testBit_bitWrite, ST_GO_UP, ST_GO_DOWN]
  · unfold isrEncoder
    split_ifs with hb <;> simp [hb]
  · unfold isrSwitch
    split_ifs with h <;> simp_all [testBit_bitWrite, ST_AUTO]
  · intro hne
    unfold isrSwitch
    split_ifs <;> simp_all [testBit_bitWrite, ST_AUTO]
  · exact loopIter_bit_mono s inp ST_GO_UP (by decide) (by decide)
  · exact loopIter_bit_mono s inp ST_GO_DOWN (by decide) (by decide)
  · exact loopIter_bit_preserved s inp ST_AUTO (by decide) (by decide) (by decide) (by decide)
  · exact loopIter_bit_preserved s inp ST_STEREO (by decide) (by decide) (by decide) (by decide)

theorem flag_discipline_amended_witness :
    (bitRead 4 ST_GO_UP = true → bitRead (isrEncoder 4 true) ST_GO_UP = true) ∧
    bitRead (loopIter ⟨88, 0⟩ ⟨none, false⟩).1.status ST_AUTO = bitRead (0 : Nat) ST_AUTO :=
  ⟨(flag_discipline_amended 4 ST_GO_UP true ⟨88, 0⟩ ⟨none, false⟩ (by decide)).1,
   (flag_discipline_amended 4 ST_AUTO true ⟨88, 0⟩ ⟨none, false⟩ (by decide)).2.2.2.2.2.2.1⟩

end TEA5767

namespace TEA5767

/-! ### Structure of the LCD write lists -/

theorem lcdWriteList_row (d : LCDState) (vs : List ℤ) :
    (lcdWriteList d vs).row = d.row := by
  induction vs generalizing d with
  | nil => rfl
  | cons v vs ih => exact (ih (lcdWrite d v)).trans rfl

theorem lcdWriteList_writes (d : LCDState) (vs : List ℤ) :
    ∃ t, (lcdWriteList d vs).writes = d.writes ++ t ∧ ∀ w ∈ t, w.2.1 = d.row := by
  induction vs generalizing d with
  | nil => exact ⟨[], by simp [lcdWriteList], by simp⟩
  | cons v vs ih =>
    obtain ⟨t, ht, hall⟩ := ih (lcdWrite d v)
    refine ⟨(d.col, d.row, v) :: t, ?_, ?_⟩
    · have e : lcdWriteList d (v :: vs) = lcdWriteList (lcdWrite d v) vs := rfl
      rw [e, ht]
      simp [lcdWrite]
    · intro w hw
      rcases List.mem_cons.mp hw with h | h
      · subst h; rfl
      · exact hall w h

theorem updateScale_writes_append (f : ℚ) (d : LCDState) :
    (updateScale f d).writes = d.writes ++ updateScaleWrites f := by
  unfold updateScale updateScaleWrites updateScale lcd₀
  split_ifs <;> simp [lcdWrite, lcdSetCursor]

theorem updateScaleWrites_eq (f : ℚ) :
    updateScaleWrites f =
      (if lcdMajor f > 0 then [(lcdMajor f - 1, 0, SCALE_CLEAR)] else []) ++
      [(lcdMajor f, 0, lcdMinor f)] ++
      (if lcdMajor f < 15 then [(lcdMajor f + 1, 0, SCALE_CLEAR)] else []) := by
  unfold updateScaleWrites updateScale lcd₀
  split_ifs <;> simp [lcdWrite, lcdSetCursor]

theorem refreshPhase_writes (s : RState) (snap : Snapshot) (d : LCDState) :
    ∃ t, (refreshPhase s (some snap) d).2.writes =
      d.writes ++ updateScaleWrites (snapFreq snap.hz) ++ t ∧
      ∀ w ∈ t, w.2.1 = 1 := by
  unfold refreshPhase
  dsimp only
  set f := snapFreq snap.hz with hf
  set U := updateScale f d with hU
  have hUw : U.writes = d.writes ++ updateScaleWrites f := updateScale_writes_append f d
  -- signal field
  set d3 := lcdWrite (lcdSetCursor U 0 1) 183 with hd3
  have hd3w : d3.writes = U.writes ++ [(0, 1, 183)] := rfl
  have hd3r : d3.row = 1 := rfl
  set d4 := if signalPercent snap.signalLevel < 100 then lcdWrite d3 32 else d3 with hd4
  have hd4w : ∃ t4, d4.writes = d3.writes ++ t4 ∧ ∀ w ∈ t4, w.2.1 = 1 := by
    rw [hd4]
    split_ifs
    · exact ⟨[(d3.col, 1, 32)], rfl, by simp⟩
    · exact ⟨[], by simp, by simp⟩
  have hd4r : d4.row = 1 := by
    rw [hd4]; split_ifs <;> rfl
  obtain ⟨t4, ht4, ht4r⟩ := hd4w
  obtain ⟨t5, ht5, ht5r⟩ := lcdWriteList_writes d4 (natDigitChars (signalPercent snap.signalLevel))
  set d5 := lcdWriteList d4 (natDigitChars (signalPercent snap.signalLevel)) with hd5
  have hd5r : d5.row = 1 := by rw [hd5, lcdWriteList_row]; exact hd4r
  set d6 := lcdWrite d5 37 with hd6
  have hd6w : d6.writes = d5.writes ++ [(d5.col, d5.row, 37)] := rfl
  have hd6r : d6.row = 1 := by rw [hd6]; show d5.row = 1; exact hd5r
  -- frequency field
  set d8 := if f < 100 then lcdWrite (lcdSetCursor d6 6 1) 32 else lcdSetCursor d6 6 1 with hd8
  have hd8w : ∃ t8, d8.writes = d6.writes ++ t8 ∧ ∀ w ∈ t8, w.2.1 = 1 := by
    rw [hd8]
    split_ifs
    · exact ⟨[(6, 1, 32)], rfl, by simp⟩
    · exact ⟨[], by simp [lcdSetCursor], by simp⟩
  have hd8r : d8.row = 1 := by rw [hd8]; split_ifs <;> rfl
  obtain ⟨t8, ht8, ht8r⟩ := hd8w
  obtain ⟨t9, ht9, ht9r⟩ := lcdWriteList_writes d8 (printFloat1 f)
  set d9 := lcdWriteList d8 (printFloat1 f) with hd9
  have hd9r : d9.row = 1 := by rw [hd9, lcdWriteList_row]; exact hd8r
  -- stereo field
  set d11 := if snap.stereo then
      lcdWrite (lcdWrite (lcdSetCursor d9 14 1) STEREO_CHAR_S) STEREO_CHAR_T
    else lcdWriteList (lcdSetCursor d9 14 1) [32, 32] with hd11
  have hd11w : ∃ t11, d11.writes = d9.writes ++ t11 ∧ ∀ w ∈ t11, w.2.1 = 1 := by
    rw [hd11]
    split_ifs
    · exact ⟨[(14, 1, STEREO_CHAR_S), (15, 1, STEREO_CHAR_T)],
        by simp [lcdWrite, lcdSetCursor], by simp⟩
    · exact ⟨[(14, 1, 32), (15, 1, 32)],
        by simp [lcdWriteList, lcdWrite, lcdSetCursor], by simp⟩
  obtain ⟨t11, ht11, ht11r⟩ := hd11w
  refine ⟨[(0, 1, 183)] ++ t4 ++ t5 ++ [(d5.col, d5.row, 37)] ++ t8 ++ t9 ++ t11, ?_, ?_⟩
  · show d11.writes = _
    rw [ht11, ht9, ht8, hd6w, ht5, ht4, hd3w, hUw]
    simp [List.append_assoc]
  · intro w hw
    simp only [List.mem_append, List.mem_singleton] at hw
    rcases hw with ((((((h | h) | h) | h) | h) | h) | h)
    · subst h; rfl
    · exact ht4r w h
    · exact ht5r w h |>.trans hd4r
    · subst h; show d5.row = 1; exact hd5r
    · exact ht8r w h
    · exact ht9r w h |>.trans hd8r
    · exact ht11r w h

end TEA5767

namespace TEA5767

/-! ### C10: adoption of the peripheral-reported frequency -/

/-- **C10 counterexample** A snapshot reporting 108.04 MHz — outside
[88, 108] — does *not* leave the stored frequency out of range: rounding
to the nearest 0.1 MHz brings it back to exactly 108.0, which is in
range.  ("No clamping" is right, but not every out-of-range report
escapes the range.) -/
theorem snapshot_rounds_into_range_cex :
    ¬ ((108040000 : ℚ) / 1000000 ≤ 108) ∧
    (refreshPhase ⟨88, 0⟩ (some ⟨108040000, false, 0⟩) lcd₀).1.frequency = 108 ∧
    (88 ≤ (108 : ℚ) ∧ (108 : ℚ) ≤ 108) := by
  refine ⟨by norm_num, ?_, by norm_num⟩
  rw [refreshPhase_fst]
  norm_num [freqOf, snapFreq]

/-- **C10 amended** Whenever a snapshot is available the controller
replaces the stored frequency with `floor(hz / 100000 + 0.5) / 10` — the
reported frequency rounded (half-up) to the nearest 0.1 MHz, within
1/20 MHz of `hz / 10^6` — and applies no clamping: whenever the *rounded*
value lies outside [88, 108], the stored frequency leaves that range. -/
theorem snapshot_adoption_no_clamp (s : RState) (snap : Snapshot) (d : LCDState) :
    (refreshPhase s (some snap) d).1.frequency = snapFreq snap.hz ∧
    onGrid (snapFreq snap.hz) ∧
    (snap.hz / 1000000 - 1 / 20 < snapFreq snap.hz ∧
      snapFreq snap.hz ≤ snap.hz / 1000000 + 1 / 20) ∧
    (¬ (88 ≤ snapFreq snap.hz ∧ snapFreq snap.hz ≤ 108) →
      ¬ (88 ≤ (refreshPhase s (some snap) d).1.frequency ∧
         (refreshPhase s (some snap) d).1.frequency ≤ 108)) := by
  have e : (refreshPhase s (some snap) d).1.frequency = snapFreq snap.hz := by
    rw [refreshPhase_fst]
    rfl
  have hf1 : ((⌊snap.hz / 100000 + 1 / 2⌋ : ℤ) : ℚ) ≤ snap.hz / 100000 + 1 / 2 :=
    Int.floor_le _
  have hf2 : snap.hz / 100000 + 1 / 2 < ((⌊snap.hz / 100000 + 1 / 2⌋ : ℤ) : ℚ) + 1 :=
    Int.lt_floor_add_one _
  have hhz : snap.hz / 1000000 = snap.hz / 100000 / 10 := by ring
  refine ⟨e, ⟨⌊snap.hz / 100000 + 1 / 2⌋, rfl⟩, ⟨?_, ?_⟩, ?_⟩
  · unfold snapFreq
    rw [hhz]
    linarith
  · unfold snapFreq
    rw [hhz]
    linarith
  · intro h
    rw [e]
    exact h

theorem snapshot_adoption_no_clamp_witness :
    ¬ (88 ≤ (refreshPhase ⟨88, 0⟩ (some ⟨150000000, false, 0⟩) lcd₀).1.frequency ∧
       (refreshPhase ⟨88, 0⟩ (some ⟨150000000, false, 0⟩) lcd₀).1.frequency ≤ 108) :=
  (snapshot_adoption_no_clamp ⟨88, 0⟩ ⟨150000000, false, 0⟩ lcd₀).2.2.2
    (by norm_num [snapFreq])

/-! ### C8: iterations without a tuner snapshot -/

/-- **C8** When the tuner reports no snapshot, the iteration writes
exactly one display cell — the auto/manual letter at column 12 of row
1 — so the dial scale, signal, frequency and stereo fields are untouched;
the refresh step leaves the state (in particular the stored frequency)
and the display pass unchanged; and in *every* iteration, whatever the
reading, the first display write is the auto/manual letter. -/
theorem no_reading_skips_refresh (s : RState) (inp : Input) (h : inp.reading = none) :
    (loopIter s inp).2.2.writes =
      [(12, 1, if bitRead s.status ST_AUTO then 65 else 77)] ∧
    (refreshPhase s none lcd₀).1 = s ∧
    (refreshPhase s none lcd₀).2 = lcd₀ ∧
    (∀ inp' : Input, ((loopIter s inp').2.2.writes).head? =
      some (12, 1, if bitRead s.status ST_AUTO then 65 else 77)) := by
  have hone : ∀ inp' : Input, (loopIter s inp').2.2 =
      (refreshPhase s inp'.reading
        (lcdWrite (lcdSetCursor lcd₀ 12 1)
          (if bitRead s.status ST_AUTO then 65 else 77))).2 := by
    intro inp'
    obtain ⟨r, c⟩ := inp'
    cases r <;> simp [loopIter, refreshPhase]
  refine ⟨?_, rfl, rfl, ?_⟩
  · rw [hone, h]
    rfl
  · intro inp'
    rw [hone]
    cases hr : inp'.reading with
    | none => rfl
    | some snap =>
      obtain ⟨t, ht, -⟩ := refreshPhase_writes s snap
        (lcdWrite (lcdSetCursor lcd₀ 12 1) (if bitRead s.status ST_AUTO then 65 else 77))
      rw [ht]
      rfl

theorem no_reading_skips_refresh_witness :
    (loopIter ⟨88, 0⟩ ⟨none, false⟩).2.2.writes =
      [(12, 1, if bitRead (0 : Nat) ST_AUTO then 65 else 77)] ∧
    (refreshPhase ⟨88, 0⟩ none lcd₀).1 = ⟨88, 0⟩ :=
  ⟨(no_reading_skips_refresh ⟨88, 0⟩ ⟨none, false⟩ rfl).1,
   (no_reading_skips_refresh ⟨88, 0⟩ ⟨none, false⟩ rfl).2.1⟩

end TEA5767

namespace TEA5767

/-! ### C6: the needle rendering rule -/

theorem lcdBase_bounds (f : ℚ) (h88 : 88 ≤ f) : 0 ≤ lcdBase f ∧ lcdBase f ≤ 79 := by
  have hx0 : (0 : ℚ) ≤ (f - 88) * 4 := by linarith
  have hct : ctrunc ((f - 88) * 4) = ⌊(f - 88) * 4⌋ := by
    unfold ctrunc
    rw [if_neg (not_lt.mpr hx0)]
  have h0 := Int.floor_nonneg.mpr hx0
  unfold lcdBase
  rw [hct]
  split <;> omega

theorem lcdMajor_bounds (f : ℚ) (h88 : 88 ≤ f) : 0 ≤ lcdMajor f ∧ lcdMajor f ≤ 15 := by
  obtain ⟨h0, h79⟩ := lcdBase_bounds f h88
  unfold lcdMajor
  rw [Int.tdiv_eq_ediv h0 (by norm_num)]
  omega

theorem lcdMinor_bounds (f : ℚ) (h88 : 88 ≤ f) : 0 ≤ lcdMinor f ∧ lcdMinor f ≤ 4 := by
  obtain ⟨h0, h79⟩ := lcdBase_bounds f h88
  unfold lcdMinor
  rw [Int.tmod_eq_emod h0 (by norm_num)]
  omega

theorem updateScaleWrites_88 : updateScaleWrites 88 = [(0, 0, 0), (1, 0, 5)] := by
  norm_num [updateScaleWrites, updateScale, lcdMajor, lcdMinor, lcdBase, ctrunc,
    lcd₀, lcdWrite, lcdSetCursor, SCALE_CLEAR]

theorem updateScaleWrites_108 : updateScaleWrites 108 = [(14, 0, 5), (15, 0, 4)] := by
  norm_num [updateScaleWrites, updateScale, lcdMajor, lcdMinor, lcdBase, ctrunc,
    lcd₀, lcdWrite, lcdSetCursor, SCALE_CLEAR, Int.tdiv, Int.tmod]

theorem applyWrites_append (r : ℤ → ℤ) (xs ys : List (ℤ × Nat × ℤ)) :
    applyWrites r (xs ++ ys) = applyWrites (applyWrites r xs) ys := by
  simp [applyWrites, List.foldl_append]

theorem applyWrites_updateScale (f : ℚ) (r : ℤ → ℤ) (c : ℤ) :
    applyWrites r (updateScaleWrites f) c =
      if lcdMajor f < 15 ∧ c = lcdMajor f + 1 then SCALE_CLEAR
      else if c = lcdMajor f then lcdMinor f
      else if lcdMajor f > 0 ∧ c = lcdMajor f - 1 then SCALE_CLEAR
      else r c := by
  have hmid : ∀ g : ℤ → ℤ, applyWrites g [(lcdMajor f, 0, lcdMinor f)] c =
      if c = lcdMajor f then lcdMinor f else g c := by
    intro g
    by_cases hc : c = lcdMajor f
    · simp [applyWrites, hc]
    · simp only [applyWrites, List.foldl_cons, List.foldl_nil]
      rw [if_neg (fun h => hc h.2.symm), if_neg hc]
  have hL1 : ∀ g : ℤ → ℤ,
      applyWrites g (if lcdMajor f > 0 then [(lcdMajor f - 1, 0, SCALE_CLEAR)] else []) c =
      if lcdMajor f > 0 ∧ c = lcdMajor f - 1 then SCALE_CLEAR else g c := by
    intro g
    split_ifs with h1 h2 h2
    · simp [applyWrites, h2.2]
    · simp only [applyWrites, List.foldl_cons, List.foldl_nil]
      rw [if_neg (fun h => h2 ⟨h1, h.2.symm⟩)]
    · exact absurd h2.1 h1
    · rfl
  have hL3 : ∀ g : ℤ → ℤ,
      applyWrites g (if lcdMajor f < 15 then [(lcdMajor f + 1, 0, SCALE_CLEAR)] else []) c =
      if lcdMajor f < 15 ∧ c = lcdMajor f + 1 then SCALE_CLEAR else g c := by
    intro g
    split_ifs with h1 h2 h2
    · simp [applyWrites, h2.2]
    · simp only [applyWrites, List.foldl_cons, List.foldl_nil]
      rw [if_neg (fun h => h2 ⟨h1, h.2.symm⟩)]
    · exact absurd h2.1 h1
    · rfl
  rw [updateScaleWrites_eq, applyWrites_append, applyWrites_append, hL3, hmid, hL1]

/-- **C6 counterexample** One run of `updateScale` clears only the two
neighbouring cells, so after rendering the needle at 88.0 (column 0) and
then at 108.0 (column 15), *two* needle glyphs are visible on the dial
row: the stale one at column 0 and the fresh one at column 15.  The
"at most one needle glyph visible after every update" consequence fails
when the needle jumps by more than one column. -/
theorem needle_unique_cex :
    isNeedleGlyph (rowAfterJump 0) ∧ isNeedleGlyph (rowAfterJump 15) ∧
    ¬ (∀ c c' : ℤ, 0 ≤ c → c ≤ 15 → 0 ≤ c' → c' ≤ 15 →
        isNeedleGlyph (rowAfterJump c) → isNeedleGlyph (rowAfterJump c') → c = c') := by
  have h0 : rowAfterJump 0 = 0 := by
    simp [rowAfterJump, updateScaleWrites_88, updateScaleWrites_108, applyWrites,
      scaleRow0, List.foldl_cons, List.foldl_nil]
  have h15 : rowAfterJump 15 = 4 := by
    simp [rowAfterJump, updateScaleWrites_88, updateScaleWrites_108, applyWrites,
      scaleRow0, List.foldl_cons, List.foldl_nil]
  have hn0 : isNeedleGlyph (rowAfterJump 0) := by
    rw [h0]
    exact ⟨le_refl 0, by norm_num⟩
  have hn15 : isNeedleGlyph (rowAfterJump 15) := by
    rw [h15]
    constructor <;> norm_num
  refine ⟨hn0, hn15, ?_⟩
  intro hall
  have h := hall 0 15 (by norm_num) (by norm_num) (by norm_num) (by norm_num) hn0 hn15
  norm_num at h

/-- **C6 amended** Each run of `updateScale` writes exactly one needle
glyph (id 0..4, namely `lcdMinor f`), at column `lcdMajor f` of row 0;
the left neighbour is rewritten with the blank scale glyph unless the
needle is at column 0 and the right neighbour unless it is at column 15.
Consequently at most one needle glyph is visible after the update
*provided* the needle moved by at most one column since the previous
render (a larger jump can leave a stale needle glyph, see the
counterexample). -/
theorem needle_render_amended (f : ℚ) (h88 : 88 ≤ f) (h108 : f ≤ 108)
    (r : ℤ → ℤ) (p : ℤ) (hp0 : 0 ≤ p) (hp15 : p ≤ 15)
    (hprev : ∀ c : ℤ, 0 ≤ c → c ≤ 15 → isNeedleGlyph (r c) → c = p)
    (hnear1 : p - 1 ≤ lcdMajor f) (hnear2 : lcdMajor f ≤ p + 1) :
    (updateScaleWrites f =
      (if lcdMajor f > 0 then [(lcdMajor f - 1, 0, SCALE_CLEAR)] else []) ++
      [(lcdMajor f, 0, lcdMinor f)] ++
      (if lcdMajor f < 15 then [(lcdMajor f + 1, 0, SCALE_CLEAR)] else [])) ∧
    isNeedleGlyph (lcdMinor f) ∧ ¬ isNeedleGlyph SCALE_CLEAR ∧
    isNeedleGlyph (applyWrites r (updateScaleWrites f) (lcdMajor f)) ∧
    (∀ c : ℤ, 0 ≤ c → c ≤ 15 →
      isNeedleGlyph (applyWrites r (updateScaleWrites f) c) → c = lcdMajor f) := by
  obtain ⟨hm0, hm15⟩ := lcdMajor_bounds f h88
  obtain ⟨hmi0, hmi4⟩ := lcdMinor_bounds f h88
  have hminor : isNeedleGlyph (lcdMinor f) := ⟨hmi0, hmi4⟩
  have hclear : ¬ isNeedleGlyph SCALE_CLEAR := by
    norm_num [isNeedleGlyph, SCALE_CLEAR]
  refine ⟨updateScaleWrites_eq f, hminor, hclear, ?_, ?_⟩
  · rw [applyWrites_updateScale]
    rw [if_neg (by omega : ¬ (lcdMajor f < 15 ∧ lcdMajor f = lcdMajor f + 1))]
    rw [if_pos rfl]
    exact hminor
  · intro c hc0 hc15 hneedle
    rw [applyWrites_updateScale] at hneedle
    by_cases e1 : lcdMajor f < 15 ∧ c = lcdMajor f + 1
    · rw [if_pos e1] at hneedle
      exact absurd hneedle hclear
    · rw [if_neg e1] at hneedle
      by_cases e2 : c = lcdMajor f
      · exact e2
      · rw [if_neg e2] at hneedle
        by_cases e3 : lcdMajor f > 0 ∧ c = lcdMajor f - 1
        · rw [if_pos e3] at hneedle
          exact absurd hneedle hclear
        · rw [if_neg e3] at hneedle
          have hcp : c = p := hprev c hc0 hc15 hneedle
          rw [not_and_or] at e1 e3
          omega

theorem needle_render_amended_witness :
    isNeedleGlyph (applyWrites scaleRow0 (updateScaleWrites 88) (lcdMajor 88)) :=
  (needle_render_amended 88 (by norm_num) (by norm_num) scaleRow0 0 (by norm_num)
    (by norm_num)
    (fun c _ _ h => absurd h (by norm_num [isNeedleGlyph, scaleRow0, SCALE_CLEAR]))
    (by norm_num [lcdMajor, lcdBase, ctrunc, Int.tdiv])
    (by norm_num [lcdMajor, lcdBase, ctrunc, Int.tdiv])).2.2.2.1

end TEA5767

namespace TEA5767

/-! ### C1: the frequency range invariant -/

/-- **C1 counterexample** A reachable state with an out-of-range
frequency: from the initialized state, one loop iteration whose snapshot
reports 150 MHz stores frequency 150 — snapshot adoption applies no
clamping, so the claimed invariant fails. -/
theorem frequency_invariant_cex :
    Reachable badSnapState ∧
    ¬ (88 ≤ badSnapState.frequency ∧ badSnapState.frequency ≤ 108) := by
  constructor
  · exact ReachableWith.iter _ trivial ReachableWith.init
  · have e : badSnapState.frequency = 150 := by
      unfold badSnapState
      obtain ⟨h1, -⟩ := loopIter_state initState ⟨some ⟨150000000, false, 0⟩, false⟩
      rw [h1, goUpPhase_idle _ (by decide), goDownPhase_idle _ (by decide)]
      show freqOf initState (some ⟨150000000, false, 0⟩) = 150
      norm_num [freqOf, snapFreq]
    rw [e]
    norm_num

theorem goUpPhase_preserves_freq (s : RState)
    (h : (88 ≤ s.frequency ∧ s.frequency ≤ 108) ∧ onGrid s.frequency) :
    (88 ≤ (goUpPhase s).1.frequency ∧ (goUpPhase s).1.frequency ≤ 108) ∧
    onGrid (goUpPhase s).1.frequency := by
  obtain ⟨⟨h88, h108⟩, k, hk⟩ := h
  unfold goUpPhase
  split_ifs with h1 h2 h3
  · exact ⟨⟨h88, h108⟩, k, hk⟩
  · have hklo : (880 : ℚ) ≤ (k : ℚ) := by rw [hk] at h88; linarith
    have hkhiq : (k : ℚ) < 1080 := by rw [hk] at h3; linarith
    have hkhi : k < 1080 := by exact_mod_cast hkhiq
    have hk1079 : (k : ℚ) ≤ 1079 := by
      have : k ≤ 1079 := by omega
      exact_mod_cast this
    refine ⟨⟨?_, ?_⟩, k + 1, ?_⟩
    · show 88 ≤ s.frequency + 1 / 10
      linarith
    · show s.frequency + 1 / 10 ≤ 108
      rw [hk]
      linarith
    · show s.frequency + 1 / 10 = ((k + 1 : ℤ) : ℚ) / 10
      rw [hk]
      push_cast
      ring
  · exact ⟨⟨h88, h108⟩, k, hk⟩
  · exact ⟨⟨h88, h108⟩, k, hk⟩

theorem goDownPhase_preserves_freq (s : RState)
    (h : (88 ≤ s.frequency ∧ s.frequency ≤ 108) ∧ onGrid s.frequency) :
    (88 ≤ (goDownPhase s).1.frequency ∧ (goDownPhase s).1.frequency ≤ 108) ∧
    onGrid (goDownPhase s).1.frequency := by
  obtain ⟨⟨h88, h108⟩, k, hk⟩ := h
  unfold goDownPhase
  split_ifs with h1 h2 h3
  · exact ⟨⟨h88, h108⟩, k, hk⟩
  · have hkloq : (880 : ℚ) < (k : ℚ) := by rw [hk] at h3; linarith
    have hklo : (880 : ℤ) < k := by exact_mod_cast hkloq
    have hk881 : (881 : ℚ) ≤ (k : ℚ) := by
      have : (881 : ℤ) ≤ k := by omega
      exact_mod_cast this
    refine ⟨⟨?_, ?_⟩, k - 1, ?_⟩
    · show 88 ≤ s.frequency - 1 / 10
      rw [hk]
      linarith
    · show s.frequency - 1 / 10 ≤ 108
      linarith
    · show s.frequency - 1 / 10 = ((k - 1 : ℤ) : ℚ) / 10
      rw [hk]
      push_cast
      ring
  · exact ⟨⟨h88, h108⟩, k, hk⟩
  · exact ⟨⟨h88, h108⟩, k, hk⟩

/-- **C1 amended** Provided every adopted snapshot reports a frequency
that rounds into [88, 108], every reachable state — after initialization,
after any handler invocation and after each loop iteration — has its
frequency in [88, 108], and on an exact multiple of 0.1 MHz; in
particular the manual increment, the manual decrement and the (in-band)
snapshot adoption each preserve the bound. -/
theorem frequency_invariant_good (s : RState) (h : ReachableWith goodInput s) :
    (88 ≤ s.frequency ∧ s.frequency ≤ 108) ∧ onGrid s.frequency := by
  induction h with
  | init =>
    refine ⟨⟨by norm_num [initState], by norm_num [initState]⟩, 880, ?_⟩
    norm_num [initState]
  | encoder b h ih => exact ih
  | switch h ih => exact ih
  | iter inp hg h ih =>
    rename_i s'
    obtain ⟨hstate, -⟩ := loopIter_state s' inp
    rw [hstate]
    apply goDownPhase_preserves_freq
    apply goUpPhase_preserves_freq
    cases hr : inp.reading with
    | none => exact ih
    | some snap =>
      have hgood := hg snap hr
      exact ⟨⟨hgood.1, hgood.2⟩, ⟨⌊snap.hz / 100000 + 1 / 2⌋, rfl⟩⟩

theorem frequency_invariant_good_witness :
    (88 ≤ initState.frequency ∧ initState.frequency ≤ 108) ∧
    onGrid initState.frequency :=
  frequency_invariant_good initState ReachableWith.init

end TEA5767

namespace TEA5767

/-! ### C7: the six-goUp end-to-end scenario -/

theorem snapFreq_echo (k : ℤ) : snapFreq ((k : ℚ) / 10 * 1000000) = (k : ℚ) / 10 := by
  unfold snapFreq
  have e : (k : ℚ) / 10 * 1000000 / 100000 + 1 / 2 = 1 / 2 + (k : ℚ) := by ring
  rw [e, Int.floor_add_int]
  norm_num

theorem updateScaleWrites_filter (f : ℚ) (h88 : 88 ≤ f) :
    (updateScaleWrites f).filter isNeedleWrite = [(lcdMajor f, 0, lcdMinor f)] := by
  obtain ⟨hmi0, hmi4⟩ := lcdMinor_bounds f h88
  have h5 : ∀ a : ℤ, isNeedleWrite (a, 0, SCALE_CLEAR) = false := by
    intro a
    norm_num [isNeedleWrite, SCALE_CLEAR]
  have hm : isNeedleWrite (lcdMajor f, 0, lcdMinor f) = true := by
    simp only [isNeedleWrite, Bool.and_eq_true, beq_iff_eq, decide_eq_true_eq]
    exact ⟨⟨trivial, hmi0⟩, hmi4⟩
  rw [updateScaleWrites_eq, List.filter_append, List.filter_append]
  split_ifs <;> simp [List.filter, h5, hm]

theorem loopIter_lcd (s : RState) (inp : Input) :
    (loopIter s inp).2.2 =
      (refreshPhase s inp.reading (lcdWrite (lcdSetCursor lcd₀ 12 1)
        (if bitRead s.status ST_AUTO then 65 else 77))).2 := by
  obtain ⟨r, c⟩ := inp
  cases r <;> simp [loopIter, refreshPhase]

theorem loopIter_needle_count (s : RState) (snap : Snapshot) (c : Bool)
    (h88 : 88 ≤ snapFreq snap.hz) :
    (((loopIter s ⟨some snap, c⟩).2.2.writes).filter isNeedleWrite).length = 1 := by
  rw [loopIter_lcd]
  obtain ⟨t, ht, htr⟩ := refreshPhase_writes s snap
    (lcdWrite (lcdSetCursor lcd₀ 12 1) (if bitRead s.status ST_AUTO then 65 else 77))
  rw [ht]
  have hAM : ((lcdWrite (lcdSetCursor lcd₀ 12 1)
      (if bitRead s.status ST_AUTO then 65 else 77)).writes.filter isNeedleWrite) = [] := by
    simp [lcdWrite, lcdSetCursor, lcd₀, List.filter, isNeedleWrite]
  have hT : t.filter isNeedleWrite = [] := by
    rw [List.filter_eq_nil_iff]
    intro w hw
    have hr := htr w hw
    simp [isNeedleWrite, hr]
  rw [List.filter_append, List.filter_append, hAM, hT,
    updateScaleWrites_filter _ h88]
  simp

theorem scenarioStep_spec (s : RState) (k : ℤ) (hst : s.status = 0)
    (hf : s.frequency = (k : ℚ) / 10) (hk1 : 880 ≤ k) (hk2 : k ≤ 1079) :
    (scenarioStep s).1 = ⟨((k : ℚ) + 1) / 10, 0⟩ ∧
    (scenarioStep s).2.1 = [Cmd.setFrequency (((k : ℚ) + 1) / 10)] ∧
    ((scenarioStep s).2.2.writes.filter isNeedleWrite).length = 1 := by
  have hk1q : (880 : ℚ) ≤ (k : ℚ) := by exact_mod_cast hk1
  have hk2q : (k : ℚ) ≤ 1079 := by exact_mod_cast hk2
  have hecho : snapFreq (s.frequency * 1000000) = (k : ℚ) / 10 := by
    rw [hf]
    exact snapFreq_echo k
  have hs4 : (⟨s.frequency, isrEncoder s.status true⟩ : RState).status = 4 := by
    show isrEncoder s.status true = 4
    rw [hst]
    decide
  have hXfreq : freqOf ⟨s.frequency, isrEncoder s.status true⟩
      (echoInput s.frequency).reading = (k : ℚ) / 10 := by
    show snapFreq (s.frequency * 1000000) = (k : ℚ) / 10
    exact hecho
  have hXstatus : searchPhase (⟨s.frequency, isrEncoder s.status true⟩ : RState).status
      (echoInput s.frequency).searchComplete = 4 := by
    rw [hs4]
    show searchPhase 4 false = 4
    decide
  obtain ⟨hstate, hcmds⟩ := loopIter_state ⟨s.frequency, isrEncoder s.status true⟩
    (echoInput s.frequency)
  have hXeq : (⟨freqOf ⟨s.frequency, isrEncoder s.status true⟩ (echoInput s.frequency).reading,
      searchPhase (⟨s.frequency, isrEncoder s.status true⟩ : RState).status
        (echoInput s.frequency).searchComplete⟩ : RState) = ⟨(k : ℚ) / 10, 4⟩ := by
    rw [hXfreq, hXstatus]
  have hup : goUpPhase ⟨(k : ℚ) / 10, 4⟩ =
      (⟨(k : ℚ) / 10 + 1 / 10, bitWrite 4 ST_GO_UP false⟩,
        [Cmd.setFrequency ((k : ℚ) / 10 + 1 / 10)]) := by
    apply goUpPhase_manual
    · exact (by decide : bitRead 4 ST_GO_UP = true)
    · exact Or.inl (by decide : bitRead 4 ST_AUTO = false)
    · show (k : ℚ) / 10 < 108
      linarith
  have hdnidle : goDownPhase ⟨(k : ℚ) / 10 + 1 / 10, bitWrite 4 ST_GO_UP false⟩ =
      (⟨(k : ℚ) / 10 + 1 / 10, bitWrite 4 ST_GO_UP false⟩, []) := by
    apply goDownPhase_idle
    exact (by decide : bitRead (bitWrite 4 ST_GO_UP false) ST_GO_DOWN = false)
  have hfr : (k : ℚ) / 10 + 1 / 10 = ((k : ℚ) + 1) / 10 := by ring
  refine ⟨?_, ?_, ?_⟩
  · show (loopIter ⟨s.frequency, isrEncoder s.status true⟩ (echoInput s.frequency)).1 = _
    rw [hstate, hXeq, hup, hdnidle]
    have hw : bitWrite 4 ST_GO_UP false = 0 := by decide
    rw [hfr, hw]
  · show (loopIter ⟨s.frequency, isrEncoder s.status true⟩ (echoInput s.frequency)).2.1 = _
    rw [hcmds, hXeq, hup, hdnidle]
    rw [hfr]
    rfl
  · show (((loopIter ⟨s.frequency, isrEncoder s.status true⟩
      (echoInput s.frequency)).2.2.writes).filter isNeedleWrite).length = 1
    have h88' : 88 ≤ snapFreq (s.frequency * 1000000) := by
      rw [hecho]
      linarith
    exact loopIter_needle_count ⟨s.frequency, isrEncoder s.status true⟩
      ⟨s.frequency * 1000000, false, 7⟩ false h88'

end TEA5767

namespace TEA5767

theorem runScenario_spec (n : Nat) (hn : (n : ℤ) ≤ 199) :
    (runScenario n).1 = ⟨(880 + (n : ℚ)) / 10, 0⟩ ∧
    (runScenario n).2.1 = (List.range n).map
      (fun i : Nat => Cmd.setFrequency ((881 + (i : ℚ)) / 10)) ∧
    ((runScenario n).2.2.filter isNeedleWrite).length = n := by
  induction n with
  | zero =>
    refine ⟨?_, rfl, rfl⟩
    show initState = _
    unfold initState
    norm_num
  | succ n ih =>
    have hn' : (n : ℤ) ≤ 199 := by push_cast at hn ⊢; omega
    obtain ⟨ih1, ih2, ih3⟩ := ih hn'
    have hk2 : (880 : ℤ) + n ≤ 1079 := by omega
    obtain ⟨st1, st2, st3⟩ := scenarioStep_spec (runScenario n).1 (880 + (n : ℤ))
      (by rw [ih1]) (by rw [ih1]; show (880 + (n : ℚ)) / 10 = _; push_cast; ring)
      (by omega) hk2
    have hrun : runScenario (n + 1) = ((scenarioStep (runScenario n).1).1,
        (runScenario n).2.1 ++ (scenarioStep (runScenario n).1).2.1,
        (runScenario n).2.2 ++ (scenarioStep (runScenario n).1).2.2.writes) := rfl
    refine ⟨?_, ?_, ?_⟩
    · rw [hrun]
      show (scenarioStep (runScenario n).1).1 = _
      rw [st1]
      congr 1
      push_cast
      ring
    · show (runScenario n).2.1 ++ (scenarioStep (runScenario n).1).2.1 = _
      rw [ih2, st2, List.range_succ, List.map_append]
      congr 2
      push_cast
      ring
    · show (((runScenario n).2.2 ++
        (scenarioStep (runScenario n).1).2.2.writes).filter isNeedleWrite).length = n + 1
      rw [List.filter_append, List.length_append, ih3, st3]

theorem six_goUp_scenario :
    initState.frequency = 88 ∧ bitRead initState.status ST_AUTO = false ∧
    bitRead initState.status ST_SEARCH = false ∧
    (runScenario 6).1.frequency = 443 / 5 ∧
    (runScenario 6).2.1 = [Cmd.setFrequency (881 / 10), Cmd.setFrequency (441 / 5),
      Cmd.setFrequency (883 / 10), Cmd.setFrequency (442 / 5),
      Cmd.setFrequency (885 / 10), Cmd.setFrequency (443 / 5)] ∧
    ((runScenario 6).2.2.filter isNeedleWrite).length = 6 := by
  obtain ⟨h1, h2, h3⟩ := runScenario_spec 6 (by norm_num)
  refine ⟨by norm_num [initState], by decide, by decide, ?_, ?_, h3⟩
  · rw [h1]
    norm_num
  · rw [h2]
    norm_num [List.range_succ]

end TEA5767
